import Mathlib

/-!
Formal model of the venue directory and moderation service
(the fields router: sports venues, their images, and abuse reports).

Strings from the database and from requests are modelled as lists of
characters.  SQL rows are modelled as structures, tables as lists of rows
kept in insertion order.  Timestamps are modelled by a logical clock that
the database bumps on every insert.  External collaborators (blob store,
e-mail notifier) perform no state change that is visible to the service,
so only their success/failure outcome is modelled where the code inspects
it.
-/

/-- Shorthand for the character-list representation of SQL/JS strings. -/
abbrev Str := List Char

/-- A row of the users table (the columns this service reads). -/
structure User where
  id : Nat
  username : Str
  is_admin : Bool
deriving DecidableEq

/-- A row of the sports_venues table (resp. the legacy football_fields
table), restricted to the columns the modelled operations touch. -/
structure Venue where
  id : Nat
  name : Str
  city : Option Str
  province : Option Str
  region : Option Str
  sport_type : Str
  surface_type : Option Str
  venue_type : Option Str
  created_at : Nat
  added_by_user_id : Option Nat
deriving DecidableEq

/-- A row of the field_images table. -/
structure Image where
  id : Nat
  field_id : Nat
  image_url : Str
  uploaded_by : Nat
  uploaded_at : Nat
  is_primary : Bool
deriving DecidableEq

/-- A row of the venue_reports table. -/
structure Report where
  id : Nat
  venue_id : Nat
  reported_by_user_id : Nat
  report_type : Str
  description : Option Str
  status : Str
  created_at : Nat
deriving DecidableEq

/-- The database state: the four tables (plus the legacy football_fields
table referenced by the venue-delete path), the serial-id counters and
the timestamp clock. -/
structure DB where
  sports_venues : List Venue
  football_fields : List Venue
  users : List User
  field_images : List Image
  venue_reports : List Report
  next_image_id : Nat
  next_report_id : Nat
  clock : Nat
deriving DecidableEq

/-- rows[0]?.is_admin || false — admin lookup used by the delete and
report-listing endpoints. -/
def isAdminOf (db : DB) (userId : Nat) : Bool :=
  ((db.users.find? (fun u => u.id == userId)).map (fun u => u.is_admin)).getD false

/-- Outcome of POST /:id/image (after the upload middleware accepted the
file; the multer type/size filter is external to the modelled logic). -/
inductive AttachResult
  | venueNotFound
  | uploaded (imageUrl : Str)
deriving DecidableEq

/-- POST /:id/image.  Checks that the venue exists in sports_venues,
counts the venue's images (the first image becomes primary), and inserts
the new image row.  The stored file name is generated by the upload
middleware, so it enters the model as the argument url. -/
def attachImage (db : DB) (pathId uploaderId : Nat) (url : Str) : AttachResult × DB :=
  match db.sports_venues.find? (fun v => v.id == pathId) with
  | none => (AttachResult.venueNotFound, db)
  | some _ =>
    let isPrim := db.field_images.countP (fun i => i.field_id == pathId) == 0
    let img : Image :=
      { id := db.next_image_id, field_id := pathId, image_url := url,
        uploaded_by := uploaderId, uploaded_at := db.clock, is_primary := isPrim }
    (AttachResult.uploaded url,
      { db with field_images := db.field_images ++ [img],
                next_image_id := db.next_image_id + 1,
                clock := db.clock + 1 })

/-- Outcome of DELETE /:id/image/:imageId. -/
inductive RemoveResult
  | imageNotFound   -- 404 Image not found
  | forbidden       -- 403 You can only delete images you uploaded
  | deleted         -- 200
deriving DecidableEq

/-- The UPDATE that clears is_primary on every image of one venue. -/
def clearPrimary (pathId : Nat) (i : Image) : Image :=
  if i.field_id == pathId then { i with is_primary := false } else i

/-- The UPDATE that sets is_primary on the image with one id. -/
def setPrimaryFlag (imageId : Nat) (i : Image) : Image :=
  if i.id == imageId then { i with is_primary := true } else i

/-- First row of SELECT id FROM field_images WHERE field_id = $1
ORDER BY uploaded_at ASC LIMIT 1, applied to an already-filtered list:
the earliest-uploaded image, first row winning ties. -/
def oldestImage : List Image → Option Image
  | [] => none
  | i :: is =>
    match oldestImage is with
    | none => some i
    | some j => if j.uploaded_at < i.uploaded_at then some j else some i

/-- DELETE /:id/image/:imageId.  Looks the image up by its id only (the
path venue id is not compared with the image's field_id), requires the
caller to be the uploader, deletes the row, and, when the deleted image
was primary, promotes the oldest image of the venue named by the path id. -/
def removeImage (db : DB) (pathId imageId callerId : Nat) : RemoveResult × DB :=
  match db.field_images.find? (fun i => i.id == imageId) with
  | none => (RemoveResult.imageNotFound, db)
  | some image =>
    if image.uploaded_by != callerId then (RemoveResult.forbidden, db)
    else
      let afterDelete := db.field_images.filter (fun i => !(i.id == imageId))
      let final :=
        if image.is_primary then
          match oldestImage (afterDelete.filter (fun i => i.field_id == pathId)) with
          | some j => afterDelete.map (setPrimaryFlag j.id)
          | none => afterDelete
        else afterDelete
      (RemoveResult.deleted, { db with field_images := final })

/-- Outcome of PUT /:id/image/:imageId/primary. -/
inductive SetPrimaryResult
  | imageNotFound   -- 404 Image not found
  | updated         -- 200
deriving DecidableEq

/-- PUT /:id/image/:imageId/primary.  Requires the image to exist and
belong to the path venue; then clears is_primary on every image of that
venue and sets it on the target.  The caller's identity is read from the
request but never used by the logic. -/
def setPrimaryImage (db : DB) (pathId imageId callerId : Nat) : SetPrimaryResult × DB :=
  let _userId := callerId
  match db.field_images.find? (fun i => i.id == imageId && i.field_id == pathId) with
  | none => (SetPrimaryResult.imageNotFound, db)
  | some _ =>
    let final := (db.field_images.map (clearPrimary pathId)).map (setPrimaryFlag imageId)
    (SetPrimaryResult.updated, { db with field_images := final })

/-- Outcome of DELETE /:id (venue deletion).  The two 404 outcomes carry
different JSON messages in the code and are therefore distinct values. -/
inductive DeleteVenueResult
  | notFound          -- 404 Venue not found
  | notFoundOrDenied  -- 404 Venue not found or access denied
  | deletedAdmin      -- 200
  | deletedOwner      -- 200
deriving DecidableEq

/-- The HTTP status code of each venue-delete outcome. -/
def deleteStatus : DeleteVenueResult → Nat
  | DeleteVenueResult.notFound => 404
  | DeleteVenueResult.notFoundOrDenied => 404
  | DeleteVenueResult.deletedAdmin => 200
  | DeleteVenueResult.deletedOwner => 200

/-- Cascade of deleting a sports_venues row: field_images.field_id and
venue_reports.venue_id reference sports_venues(id) ON DELETE CASCADE. -/
def cascadeDeleteVenueRow (db : DB) (venueId : Nat) : DB :=
  { db with
    sports_venues := db.sports_venues.filter (fun v => !(v.id == venueId)),
    field_images := db.field_images.filter (fun i => !(i.field_id == venueId)),
    venue_reports := db.venue_reports.filter (fun r => !(r.venue_id == venueId)) }

/-- DELETE /:id.  Looks up the caller's admin flag, requires the venue to
exist in sports_venues, then: an admin deletes images, reports and the
venue row unconditionally; a non-admin succeeds only when a row with
id = path id AND added_by_user_id = caller exists (checked over both
sports_venues and the legacy football_fields table, sports_venues rows
first), otherwise the request fails with the merged
not-found-or-access-denied 404. -/
def deleteVenue (db : DB) (pathId callerId : Nat) : DeleteVenueResult × DB :=
  let isAdmin := isAdminOf db callerId
  if (db.sports_venues.find? (fun v => v.id == pathId)).isNone then
    (DeleteVenueResult.notFound, db)
  else if isAdmin then
    -- the admin path deletes child images (and their blobs) and reports
    -- explicitly before removing the venue row
    let db1 := { db with
      field_images := db.field_images.filter (fun i => !(i.field_id == pathId)),
      venue_reports := db.venue_reports.filter (fun r => !(r.venue_id == pathId)) }
    if (db1.sports_venues.find? (fun v => v.id == pathId)).isSome then
      (DeleteVenueResult.deletedAdmin, cascadeDeleteVenueRow db1 pathId)
    else if (db1.football_fields.find? (fun v => v.id == pathId)).isSome then
      (DeleteVenueResult.deletedAdmin,
        { db1 with football_fields := db1.football_fields.filter (fun v => !(v.id == pathId)) })
    else
      (DeleteVenueResult.notFound, db1)
  else
    if (db.sports_venues.find?
          (fun v => v.id == pathId && v.added_by_user_id == some callerId)).isSome then
      (DeleteVenueResult.deletedOwner, cascadeDeleteVenueRow db pathId)
    else if (db.football_fields.find?
          (fun v => v.id == pathId && v.added_by_user_id == some callerId)).isSome then
      let ff := db.football_fields.filter
        (fun v => !(v.id == pathId && v.added_by_user_id == some callerId))
      (DeleteVenueResult.deletedOwner, { db with football_fields := ff })
    else
      (DeleteVenueResult.notFoundOrDenied, db)

/-- The closed enumeration accepted by the report-type validator:
body('report_type').isIn([...]). -/
def reportTypes : List Str :=
  [("non_esiste".toList), ("info_errate".toList), ("altro".toList)]

/-- The declarative input validation of POST /:id/report: report_type
must be in the closed enumeration, description is optional but must have
length 10..500 when present. -/
def validReportInput (rtype : Str) (desc : Option Str) : Bool :=
  reportTypes.contains rtype &&
    (match desc with
     | none => true
     | some d => decide (10 ≤ d.length) && decide (d.length ≤ 500))

/-- Outcome of POST /:id/report. -/
inductive FileReportResult
  | invalidInput      -- 400 validation errors
  | venueNotFound     -- 404 Venue not found
  | alreadyReported   -- 400 duplicate-report message
  | created (r : Report)  -- 201
deriving DecidableEq

/-- The external e-mail notifier; its only observable behaviour towards
the service is success or failure. -/
def notifierSend (notifierOk : Bool) : Except Str Unit :=
  if notifierOk then Except.ok () else Except.error ("email failure".toList)

/-- POST /:id/report.  Validation first, then venue lookup, then the
duplicate check on (venue_id, reported_by_user_id); on success the report
row is inserted with status pending and the notifier is invoked inside a
try/catch whose failure branch only logs. -/
def fileReport (db : DB) (pathId reporterId : Nat) (rtype : Str)
    (desc : Option Str) (notifierOk : Bool) : FileReportResult × DB :=
  if !(validReportInput rtype desc) then (FileReportResult.invalidInput, db)
  else
    match db.sports_venues.find? (fun v => v.id == pathId) with
    | none => (FileReportResult.venueNotFound, db)
    | some _field =>
      if (db.venue_reports.find?
            (fun r => r.venue_id == pathId && r.reported_by_user_id == reporterId)).isSome then
        (FileReportResult.alreadyReported, db)
      else
        let rep : Report :=
          { id := db.next_report_id, venue_id := pathId,
            reported_by_user_id := reporterId, report_type := rtype,
            description := desc, status := ("pending".toList),
            created_at := db.clock }
        -- try { await sendFieldReportEmail(...) } catch (e) { log }
        let _ := match notifierSend notifierOk with
                 | Except.ok _ => ()
                 | Except.error _ => ()
        (FileReportResult.created rep,
          { db with venue_reports := db.venue_reports ++ [rep],
                    next_report_id := db.next_report_id + 1,
                    clock := db.clock + 1 })

/-! ## Primary-image invariant and image-operation sequences -/

/-- The image belongs to the venue vid. -/
def pImg (vid : Nat) (i : Image) : Bool := i.field_id == vid

/-- The image belongs to the venue vid and is flagged primary. -/
def pPrim (vid : Nat) (i : Image) : Bool := i.field_id == vid && i.is_primary

/-- Number of images of venue vid in the table l. -/
def imageCount (l : List Image) (vid : Nat) : Nat := l.countP (pImg vid)

/-- Number of primary images of venue vid in the table l. -/
def primaryCount (l : List Image) (vid : Nat) : Nat := l.countP (pPrim vid)

/-- The primary-image invariant: every venue has at most one primary
image, and a venue with at least one image has exactly one. -/
def PrimaryInv (l : List Image) : Prop :=
  ∀ vid : Nat, primaryCount l vid ≤ 1 ∧ (0 < imageCount l vid → primaryCount l vid = 1)

/-- Boolean check of the primary-image invariant over the venues that
occur in the image table (venues without images satisfy it trivially). -/
def primaryInvB (l : List Image) : Bool :=
  (l.map (fun i => i.field_id)).all (fun vid => l.countP (pPrim vid) == 1)

/-- One image-manipulating request: attach, remove, or set-primary, each
carrying exactly the data of the corresponding route. -/
inductive ImageOp
  | attach (pathId uploaderId : Nat) (url : Str)
  | remove (pathId imageId callerId : Nat)
  | makePrimary (pathId imageId callerId : Nat)
deriving DecidableEq

/-- The state reached after one image request (its response dropped). -/
def applyOp (db : DB) : ImageOp → DB
  | ImageOp.attach p u url => (attachImage db p u url).2
  | ImageOp.remove p i c => (removeImage db p i c).2
  | ImageOp.makePrimary p i c => (setPrimaryImage db p i c).2

/-- The state reached after a sequence of image requests. -/
def applyOps (db : DB) (ops : List ImageOp) : DB := ops.foldl applyOp db

/-- A sequence of image requests is well-addressed when every remove whose
image exists names the image's own venue in the request path (the code
never checks this; see the remove route). -/
def wellAddressed (db : DB) : List ImageOp → Bool
  | [] => true
  | op :: ops =>
    (match op with
     | ImageOp.remove p i _ =>
       match db.field_images.find? (fun img => img.id == i) with
       | none => true
       | some img => img.field_id == p
     | _ => true) && wellAddressed (applyOp db op) ops

/-- Well-formedness of the image table: the invariant holds, the serial
ids are distinct, and every id is below the id counter. -/
def WF (db : DB) : Prop :=
  PrimaryInv db.field_images ∧ (db.field_images.map (fun i => i.id)).Nodup ∧
    ∀ i ∈ db.field_images, i.id < db.next_image_id

/-! ## Venue listing -/

/-- Lower-casing of a string, character by character. -/
def lowered (s : Str) : Str := s.map Char.toLower

/-- Matches some suffix of the string against the continuation: the
s-recursion of the percent wildcard. -/
def likeSuffix (f : Str → Bool) : Str → Bool
  | [] => f []
  | d :: s2 => f (d :: s2) || likeSuffix f s2

/-- Case-insensitive SQL LIKE pattern matching (the semantics of
PostgreSQL ILIKE): percent matches any run of characters, underscore any
single character, a backslash (the default escape character) makes the
following pattern character literal (still compared up to case), and any
other pattern character matches itself up to case.  PostgreSQL rejects a
pattern that ends with a bare escape character; that case is modelled as
matching nothing, and it is unreachable from the listing route, whose
patterns always end with percent. -/
def likeMatch : Str → Str → Bool
  | [], s => s.isEmpty
  | c :: p, s =>
    if c == '\\' then
      match p with
      | [] => false
      | e :: p2 =>
        match s with
        | [] => false
        | d :: s2 => (Char.toLower e == Char.toLower d) && likeMatch p2 s2
    else if c == '%' then likeSuffix (likeMatch p) s
    else
      match s with
      | [] => false
      | d :: s2 => (c == '_' || (Char.toLower c == Char.toLower d)) && likeMatch p s2

/-- f ILIKE the pattern percent-filt-percent, as built by the listing
route for the city, province and region filters. -/
def ilikeContains (filt s : Str) : Bool := likeMatch (('%' :: filt) ++ ['%']) s

/-- JS truthiness of a query parameter: an absent or empty string keeps
the filter out of the query. -/
def truthy : Option Str → Option Str
  | none => none
  | some s => if s.isEmpty then none else some s

/-- One ILIKE filter column: an active filter requires a non-null column
value matching the percent-wrapped pattern (SQL NULL never matches). -/
def colLike (filt : Option Str) (col : Option Str) : Bool :=
  match truthy filt with
  | none => true
  | some f =>
    match col with
    | none => false
    | some c => ilikeContains f c

/-- One exact-equality filter column over a nullable column. -/
def colEq (filt : Option Str) (col : Option Str) : Bool :=
  match truthy filt with
  | none => true
  | some f => col == some f

/-- One exact-equality filter column over a non-null column. -/
def colEqStr (filt : Option Str) (col : Str) : Bool :=
  match truthy filt with
  | none => true
  | some f => col == f

/-- The query parameters of the listing route. -/
structure VenueFilters where
  city : Option Str
  province : Option Str
  region : Option Str
  surface_type : Option Str
  venue_type : Option Str
  sport_type : Option Str
deriving DecidableEq

/-- The WHERE clause of the listing query: all supplied filters are
conjoined. -/
def venueMatches (q : VenueFilters) (v : Venue) : Bool :=
  colLike q.city v.city && colLike q.province v.province && colLike q.region v.region &&
    colEq q.surface_type v.surface_type && colEq q.venue_type v.venue_type &&
    colEqStr q.sport_type v.sport_type

/-- One row of the listing/get response: the venue columns, the owner's
user name from the LEFT JOIN, and the aggregated image collection. -/
structure VenueRow where
  venue : Venue
  added_by_username : Option Str
  images : List Image
deriving DecidableEq

/-- The SELECT list of the listing and get routes: the venue row joined
with its owner's name and all of its images (the empty list when it has
none, by the COALESCE to the empty json array). -/
def annotateVenue (db : DB) (v : Venue) : VenueRow :=
  { venue := v,
    added_by_username :=
      v.added_by_user_id.bind
        (fun uid => (db.users.find? (fun u => u.id == uid)).map (fun u => u.username)),
    images := db.field_images.filter (fun i => i.field_id == v.id) }

/-- Stable insertion into a list sorted by created_at descending. -/
def insertDesc (r : VenueRow) : List VenueRow → List VenueRow
  | [] => [r]
  | x :: xs =>
    if x.venue.created_at < r.venue.created_at then r :: x :: xs
    else x :: insertDesc r xs

/-- ORDER BY created_at DESC, as a stable sort. -/
def sortByCreatedDesc : List VenueRow → List VenueRow
  | [] => []
  | x :: xs => insertDesc x (sortByCreatedDesc xs)

/-- GET / of the fields router: filter, annotate, order newest first. -/
def listVenues (db : DB) (q : VenueFilters) : List VenueRow :=
  sortByCreatedDesc ((db.sports_venues.filter (fun v => venueMatches q v)).map (annotateVenue db))

/-- The string uses no SQL LIKE wildcard character and no occurrence of
the default LIKE escape character (backslash). -/
def wildcardFree (s : Str) : Bool :=
  s.all (fun c => !(c == '%') && !(c == '_') && !(c == '\\'))

/-- All three substring filters of the query are wildcard- and
escape-free. -/
def wildcardFreeFilters (q : VenueFilters) : Bool :=
  (q.city.getD []).all (fun c => !(c == '%') && !(c == '_') && !(c == '\\')) &&
    (q.province.getD []).all (fun c => !(c == '%') && !(c == '_') && !(c == '\\')) &&
    (q.region.getD []).all (fun c => !(c == '%') && !(c == '_') && !(c == '\\'))

/-- Modelled from the spec: one substring filter column under the spec's
words, i.e. a case-insensitive substring match of the filter value
against the column value. -/
def specColContains (filt : Option Str) (col : Option Str) : Prop :=
  match truthy filt with
  | none => True
  | some f => ∃ c, col = some c ∧ lowered f <:+: lowered c

/-- Modelled from the spec: the listing filter semantics under the spec's
words, i.e. case-insensitive substring matching for city, province and
region and exact equality for surface, venue and sport type. -/
def specVenueMatches (q : VenueFilters) (v : Venue) : Prop :=
  specColContains q.city v.city ∧ specColContains q.province v.province ∧
    specColContains q.region v.region ∧ colEq q.surface_type v.surface_type = true ∧
    colEq q.venue_type v.venue_type = true ∧ colEqStr q.sport_type v.sport_type = true

/-- Modelled from the spec: the spec's (English) names for the closed
report-type enumeration, used to compare the spec's enumeration with the
one in the code. -/
def specReportTypes : List Str :=
  [("does-not-exist".toList), ("incorrect-info".toList), ("other".toList)]

/-! ## Concrete states used by witnesses and counterexamples -/

/-- A venue row with every optional column empty. -/
def blankVenue : Venue :=
  { id := 0, name := [], city := none, province := none, region := none,
    sport_type := [], surface_type := none, venue_type := none,
    created_at := 0, added_by_user_id := none }

/-- An image row template. -/
def blankImage : Image :=
  { id := 0, field_id := 0, image_url := [], uploaded_by := 0,
    uploaded_at := 0, is_primary := false }

/-- An empty database. -/
def dbBlank : DB :=
  { sports_venues := [], football_fields := [], users := [],
    field_images := [], venue_reports := [],
    next_image_id := 1, next_report_id := 1, clock := 0 }

/-- Venue 1 owned by user 10. -/
def venue1 : Venue := { blankVenue with id := 1, added_by_user_id := some 10 }

/-- User 10, not an admin. -/
def user10 : User := { id := 10, username := [], is_admin := false }

/-- User 5, not an admin. -/
def user5 : User := { id := 5, username := [], is_admin := false }

/-- One venue (id 1, owned by user 10) with no images. -/
def dbOneVenue : DB :=
  { dbBlank with sports_venues := [venue1], users := [user10] }

/-- Attach two images to venue 1, then remove the first (primary) image
through a request whose path names venue 2: the remove route never checks
the path venue id against the image. -/
def opsMismatchedRemove : List ImageOp :=
  [ImageOp.attach 1 10 [], ImageOp.attach 1 10 [], ImageOp.remove 2 1 10]

/-- The same first two attaches followed by a remove whose path names the
image's own venue. -/
def opsMatchedRemove : List ImageOp :=
  [ImageOp.attach 1 10 [], ImageOp.attach 1 10 [], ImageOp.remove 1 1 10]

/-- A report by user 5 against venue 1. -/
def report1 : Report :=
  { id := 1, venue_id := 1, reported_by_user_id := 5,
    report_type := ("non_esiste".toList), description := none,
    status := ("pending".toList), created_at := 0 }

/-- Venue 1 with an existing report by user 5. -/
def dbReported : DB :=
  { dbBlank with
    sports_venues := [venue1], users := [user5],
    venue_reports := [report1], next_report_id := 2 }

/-- Image 1 of venue 1, primary, uploaded first. -/
def img1 : Image :=
  { blankImage with
    id := 1, field_id := 1, uploaded_by := 10,
    uploaded_at := 0, is_primary := true }

/-- Image 2 of venue 1, uploaded second. -/
def img2 : Image :=
  { blankImage with id := 2, field_id := 1, uploaded_by := 10, uploaded_at := 5 }

/-- Image 3 of venue 1, uploaded third. -/
def img3 : Image :=
  { blankImage with id := 3, field_id := 1, uploaded_by := 10, uploaded_at := 9 }

/-- Image 4 of venue 2, primary. -/
def img4 : Image :=
  { blankImage with
    id := 4, field_id := 2, uploaded_by := 10,
    uploaded_at := 7, is_primary := true }

/-- Venue 1 with three images of user 10; image 1 is primary and image 2
is the earliest-uploaded of the rest. -/
def dbThreeImages : DB :=
  { dbBlank with
    sports_venues := [venue1], users := [user10],
    field_images := [img1, img2, img3], next_image_id := 4, clock := 10 }

/-- Venue 2 owned by user 10. -/
def venue2 : Venue := { blankVenue with id := 2, added_by_user_id := some 10 }

/-- Two venues: venue 1 has images 1 (primary) and 2, venue 2 has
image 4 (primary); user 10 uploaded all of them. -/
def dbTwoVenuesImages : DB :=
  { dbBlank with
    sports_venues := [venue1, venue2], users := [user10],
    field_images := [img1, img2, img4], next_image_id := 5, clock := 10 }

/-- User 1, not an admin. -/
def user1 : User := { id := 1, username := [], is_admin := false }

/-- User 2, not an admin. -/
def user2 : User := { id := 2, username := [], is_admin := false }

/-- Venue 7 owned by user 1; user 2 exists and is not an admin. -/
def dbOwnedVenue : DB :=
  { dbBlank with
    sports_venues := [{ blankVenue with id := 7, added_by_user_id := some 1 }],
    users := [user1, user2] }

/-- The seeded football venue in Milano. -/
def venueMilanoFootball : Venue :=
  { blankVenue with
    id := 1, name := ("Campo Comunale San Siro".toList),
    city := some ("Milano".toList), province := some ("MI".toList),
    region := some ("Lombardia".toList), sport_type := ("football".toList),
    created_at := 0 }

/-- The seeded football venue in Roma. -/
def venueRomaFootball : Venue :=
  { blankVenue with
    id := 2, name := ("Centro Sportivo Comunale".toList),
    city := some ("Roma".toList), province := some ("RM".toList),
    region := some ("Lazio".toList), sport_type := ("football".toList),
    created_at := 1 }

/-- The seeded swimming venue in Milano. -/
def venueMilanoSwimming : Venue :=
  { blankVenue with
    id := 3, name := ("Piscina Comunale Milano".toList),
    city := some ("Milano".toList), province := some ("MI".toList),
    region := some ("Lombardia".toList), sport_type := ("swimming".toList),
    created_at := 2 }

/-- The seeded three-venue set of the spec listing example: two football
venues in Milano and Roma and one swimming venue in Milano. -/
def dbSeeded : DB :=
  { dbBlank with
    sports_venues := [venueMilanoFootball, venueRomaFootball, venueMilanoSwimming] }

/-- The city=Milano, sport_type=swimming filter of the spec example. -/
def qMilanoSwimming : VenueFilters :=
  { city := some ("Milano".toList), province := none, region := none,
    surface_type := none, venue_type := none,
    sport_type := some ("swimming".toList) }

/-- A city filter containing a SQL wildcard. -/
def qWildcardCity : VenueFilters :=
  { city := some ("M%o".toList), province := none, region := none,
    surface_type := none, venue_type := none, sport_type := none }

/-- A city filter containing the LIKE escape character: the pattern
percent-a-n-backslash-o-percent reads the escaped o as a literal o. -/
def qBackslashCity : VenueFilters :=
  { city := some ("an\\o".toList), province := none, region := none,
    surface_type := none, venue_type := none, sport_type := none }

/-- Venue 1 with city Milano, owned by user 10. -/
def venueMilanoPlain : Venue :=
  { blankVenue with id := 1, city := some ("Milano".toList), added_by_user_id := some 10 }

/-- Venue 1 with a city and no reports; user 5 exists. -/
def dbMilano : DB :=
  { dbBlank with sports_venues := [venueMilanoPlain], users := [user5] }

/-! ## General helper lemmas -/

theorem countP_split (p q : Image → Bool) (l : List Image) :
    l.countP p = (l.filter q).countP p + (l.filter (fun a => !q a)).countP p := by
  induction l with
  | nil => rfl
  | cons x xs ih =>
    by_cases h : q x = true <;>
      simp [List.filter_cons, List.countP_cons, h, ih] <;> omega

theorem filter_key_unique {α : Type} {β : Type} [DecidableEq β] (f : α → β)
    (l : List α) (a : α) (hnd : (l.map f).Nodup) (ha : a ∈ l) :
    l.filter (fun x => f x == f a) = [a] := by
  induction l with
  | nil => cases ha
  | cons b bs ih =>
    simp only [List.map_cons, List.nodup_cons] at hnd
    rcases List.mem_cons.mp ha with hb | hbs
    · subst hb
      have hrest : bs.filter (fun x => f x == f a) = [] := by
        apply List.filter_eq_nil_iff.mpr
        intro x hx
        simp only [beq_iff_eq]
        intro hfx
        exact hnd.1 (hfx ▸ List.mem_map_of_mem f hx)
      simp [List.filter_cons, hrest]
    · have hfb : (f b == f a) = false := by
        simp only [beq_eq_false_iff_ne]
        intro hba
        exact hnd.1 (hba ▸ List.mem_map_of_mem f hbs)
      simp [List.filter_cons, hfb, ih hnd.2 hbs]

theorem countP_key_unique {α : Type} {β : Type} [DecidableEq β] (f : α → β)
    (l : List α) (a : α) (hnd : (l.map f).Nodup) (ha : a ∈ l) :
    l.countP (fun x => f x == f a) = 1 := by
  rw [List.countP_eq_length_filter, filter_key_unique f l a hnd ha]
  rfl

theorem oldestImage_eq_none {l : List Image} : oldestImage l = none ↔ l = [] := by
  cases l with
  | nil => simp [oldestImage]
  | cons i is =>
    simp only [oldestImage]
    cases oldestImage is <;> simp
    split <;> simp

theorem oldestImage_mem {l : List Image} {j : Image} (h : oldestImage l = some j) :
    j ∈ l := by
  induction l generalizing j with
  | nil => cases h
  | cons i is ih =>
    simp only [oldestImage] at h
    cases hrec : oldestImage is with
    | none => rw [hrec] at h; cases h; simp
    | some k =>
      rw [hrec] at h
      by_cases hlt : k.uploaded_at < i.uploaded_at
      · simp [hlt] at h
        exact List.mem_cons_of_mem i (h ▸ ih hrec)
      · simp [hlt] at h
        simp [h]

theorem oldestImage_min {l : List Image} {j : Image} (h : oldestImage l = some j) :
    ∀ k ∈ l, j.uploaded_at ≤ k.uploaded_at := by
  induction l generalizing j with
  | nil => cases h
  | cons i is ih =>
    simp only [oldestImage] at h
    cases hrec : oldestImage is with
    | none =>
      rw [hrec] at h
      cases h
      have : is = [] := oldestImage_eq_none.mp hrec
      subst this
      simp
    | some k =>
      rw [hrec] at h
      by_cases hlt : k.uploaded_at < i.uploaded_at
      · simp [hlt] at h
        subst h
        intro m hm
        rcases List.mem_cons.mp hm with hmi | hmis
        · exact hmi ▸ le_of_lt hlt
        · exact ih hrec m hmis
      · simp [hlt] at h
        subst h
        intro m hm
        rcases List.mem_cons.mp hm with hmi | hmis
        · exact hmi ▸ le_rfl
        · exact le_trans (not_lt.mp hlt) (ih hrec m hmis)

theorem clearPrimary_id (p : Nat) (i : Image) : (clearPrimary p i).id = i.id := by
  unfold clearPrimary; split <;> rfl

theorem clearPrimary_field (p : Nat) (i : Image) :
    (clearPrimary p i).field_id = i.field_id := by
  unfold clearPrimary; split <;> rfl

theorem clearPrimary_at (p : Nat) (i : Image) :
    (clearPrimary p i).uploaded_at = i.uploaded_at := by
  unfold clearPrimary; split <;> rfl

theorem setPrimaryFlag_id (m : Nat) (i : Image) : (setPrimaryFlag m i).id = i.id := by
  unfold setPrimaryFlag; split <;> rfl

theorem setPrimaryFlag_field (m : Nat) (i : Image) :
    (setPrimaryFlag m i).field_id = i.field_id := by
  unfold setPrimaryFlag; split <;> rfl

theorem setPrimaryFlag_at (m : Nat) (i : Image) :
    (setPrimaryFlag m i).uploaded_at = i.uploaded_at := by
  unfold setPrimaryFlag; split <;> rfl

theorem clearSet_idem (p m : Nat) (x : Image) :
    setPrimaryFlag m (clearPrimary p (setPrimaryFlag m (clearPrimary p x)))
      = setPrimaryFlag m (clearPrimary p x) := by
  unfold clearPrimary setPrimaryFlag
  by_cases h1 : x.field_id == p <;> by_cases h2 : x.id == m <;> simp [h1, h2]

theorem find?_map_eq {α β : Type} (f : α → β) (p : β → Bool) (q : α → Bool)
    (l : List α) (hpq : ∀ a, p (f a) = q a) :
    (l.map f).find? p = (l.find? q).map f := by
  induction l with
  | nil => rfl
  | cons a as ih =>
    simp only [List.map_cons, List.find?]
    rw [hpq a]
    cases hqa : q a <;> simp [ih]

/-- C10: the set-primary route performs no ownership, uploader, or admin
check: for any two authenticated callers and the same venue/image
arguments and starting state, the outcome and the resulting state of the
operation are identical — the result does not depend on the caller. -/
theorem claim_C10 (db : DB) (pathId imageId c1 c2 : Nat) :
    setPrimaryImage db pathId imageId c1 = setPrimaryImage db pathId imageId c2 := rfl

/-- C8: the notifier call of the report route is wrapped in a try/catch
whose failure branch only logs, so a failing notifier yields exactly the
same response (in particular the same success) and exactly the same
persisted state — including the persisted report — as a succeeding one;
the notifier error is never propagated. -/
theorem claim_C8 (db : DB) (pathId reporterId : Nat) (rtype : Str) (desc : Option Str) :
    fileReport db pathId reporterId rtype desc false
      = fileReport db pathId reporterId rtype desc true := rfl

/-- C4: set-primary is idempotent: if the image exists and belongs to the
path venue, applying the operation twice in succession yields a state
identical to applying it once. -/
theorem claim_C4 (db : DB) (pathId imageId callerId : Nat)
    (h : (db.field_images.find? (fun i => i.id == imageId && i.field_id == pathId)).isSome) :
    (setPrimaryImage (setPrimaryImage db pathId imageId callerId).2 pathId imageId callerId).2
      = (setPrimaryImage db pathId imageId callerId).2 := by
  obtain ⟨img, hfind⟩ := Option.isSome_iff_exists.mp h
  have hcomp : ∀ x : Image,
      ((setPrimaryFlag imageId (clearPrimary pathId x)).id == imageId &&
        (setPrimaryFlag imageId (clearPrimary pathId x)).field_id == pathId)
      = (x.id == imageId && x.field_id == pathId) := by
    intro x
    rw [setPrimaryFlag_id, setPrimaryFlag_field, clearPrimary_id, clearPrimary_field]
  simp only [setPrimaryImage, hfind, List.map_map]
  rw [find?_map_eq (setPrimaryFlag imageId ∘ clearPrimary pathId)
        (fun i => i.id == imageId && i.field_id == pathId)
        (fun i => i.id == imageId && i.field_id == pathId)
        db.field_images (fun a => hcomp a), hfind]
  simp only [Option.map_some']
  congr 1
  apply List.map_congr_left
  intro x _
  exact clearSet_idem pathId imageId x

/-- Witness for C4 at a concrete state: venue 1 has images 1 (primary),
2 and 3, and image 3 is made primary twice. -/
theorem claim_C4_witness :
    (setPrimaryImage (setPrimaryImage dbThreeImages 1 3 77).2 1 3 77).2
      = (setPrimaryImage dbThreeImages 1 3 77).2 :=
  claim_C4 dbThreeImages 1 3 77 (by decide)

/-- C2 counterexample: user 5 has already reported venue 1, yet a second
report call by user 5 against venue 1 whose report_type does not pass
validation fails with the validation error, not with the duplicate-report
conflict — the claimed "regardless of the reportType and description
supplied" does not hold. -/
theorem claim_C2_cex :
    (∃ r ∈ dbReported.venue_reports, r.venue_id = 1 ∧ r.reported_by_user_id = 5) ∧
    (fileReport dbReported 1 5 ("bogus".toList) none true).1 = FileReportResult.invalidInput ∧
    (fileReport dbReported 1 5 ("bogus".toList) none true).1 ≠ FileReportResult.alreadyReported := by
  decide

/-- C2 (amended): when the second call's reportType/description pass
input validation (and the venue row still exists), a second report for
the same (venue, user) pair always fails with the duplicate-report
conflict and leaves the whole state unchanged, whatever the valid
reportType and description are. -/
theorem claim_C2 (db : DB) (vid uid : Nat) (rtype : Str) (desc : Option Str) (nk : Bool)
    (hval : validReportInput rtype desc = true)
    (hven : (db.sports_venues.find? (fun v => v.id == vid)).isSome)
    (hdup : (db.venue_reports.find?
        (fun r => r.venue_id == vid && r.reported_by_user_id == uid)).isSome) :
    fileReport db vid uid rtype desc nk = (FileReportResult.alreadyReported, db) := by
  obtain ⟨v, hv⟩ := Option.isSome_iff_exists.mp hven
  simp [fileReport, hval, hv, hdup]

/-- Witness for C2 at a concrete state: the duplicate report by user 5
on venue 1 with a different (valid) report type is rejected with the
conflict outcome and the state is unchanged. -/
theorem claim_C2_witness :
    fileReport dbReported 1 5 ("info_errate".toList) none true
      = (FileReportResult.alreadyReported, dbReported) :=
  claim_C2 dbReported 1 5 ("info_errate".toList) none true (by decide) (by decide) (by decide)

/-- The report route with failing input validation: the 400 validation
response, before any state change. -/
theorem fileReport_invalid (db : DB) (vid uid : Nat) (rtype : Str) (desc : Option Str)
    (nk : Bool) (h : validReportInput rtype desc = false) :
    fileReport db vid uid rtype desc nk = (FileReportResult.invalidInput, db) := by
  simp [fileReport, h]

/-- The report route with passing input validation never returns the
validation error. -/
theorem fileReport_valid_not_invalid (db : DB) (vid uid : Nat) (rtype : Str)
    (desc : Option Str) (nk : Bool) (h : validReportInput rtype desc = true) :
    (fileReport db vid uid rtype desc nk).1 ≠ FileReportResult.invalidInput := by
  simp only [fileReport, h, Bool.not_true, Bool.false_eq_true, if_false]
  cases hfind : db.sports_venues.find? (fun v => v.id == vid) with
  | none => simp
  | some v =>
    simp only
    split <;> simp

/-- The Boolean report-input validator, unfolded to the spec-level
condition: membership of the closed enumeration and the 10..500 length
bounds on a present description. -/
theorem validReportInput_iff (rtype : Str) (desc : Option Str) :
    validReportInput rtype desc = true ↔
      (rtype ∈ reportTypes ∧ ∀ d, desc = some d → 10 ≤ d.length ∧ d.length ≤ 500) := by
  unfold validReportInput
  cases desc <;> simp

/-- C7 counterexample: the spec's English enumeration does not match the
code.  The code accepts the report type non_esiste, which is not in the
claimed enumeration, and rejects does-not-exist, which is. -/
theorem claim_C7_cex :
    (("does-not-exist".toList) ∈ specReportTypes ∧
      (fileReport dbMilano 1 5 ("does-not-exist".toList) none true).1
        = FileReportResult.invalidInput) ∧
    (("non_esiste".toList) ∉ specReportTypes ∧
      (fileReport dbMilano 1 5 ("non_esiste".toList) none true).1
        ≠ FileReportResult.invalidInput) := by
  decide

/-- C7 (amended): the closed report-type enumeration is non_esiste,
info_errate, altro; the report route fails with the validation error
exactly when the report type is outside that enumeration or a present
description has length outside 10..500, and a validation failure leaves
the state unchanged. -/
theorem claim_C7 (db : DB) (vid uid : Nat) (rtype : Str) (desc : Option Str) (nk : Bool) :
    ((fileReport db vid uid rtype desc nk).1 = FileReportResult.invalidInput
        ↔ ¬ (rtype ∈ reportTypes ∧ ∀ d, desc = some d → 10 ≤ d.length ∧ d.length ≤ 500)) ∧
    (¬ (rtype ∈ reportTypes ∧ ∀ d, desc = some d → 10 ≤ d.length ∧ d.length ≤ 500) →
      (fileReport db vid uid rtype desc nk).2 = db) := by
  have hv := validReportInput_iff rtype desc
  by_cases hval : validReportInput rtype desc = true
  · refine ⟨⟨fun h1 => absurd h1 (fileReport_valid_not_invalid db vid uid rtype desc nk hval),
      fun h2 => absurd (hv.mp hval) h2⟩, fun h2 => absurd (hv.mp hval) h2⟩
  · have hfalse : validReportInput rtype desc = false := by
      revert hval; cases validReportInput rtype desc <;> simp
    have hne : ¬ (rtype ∈ reportTypes ∧ ∀ d, desc = some d → 10 ≤ d.length ∧ d.length ≤ 500) :=
      fun hc => hval (hv.mpr hc)
    rw [fileReport_invalid db vid uid rtype desc nk hfalse]
    exact ⟨⟨fun _ => hne, fun _ => rfl⟩, fun _ => rfl⟩

/-- Witness for C7 at concrete inputs: a too-short description is
rejected with the validation error and the state is unchanged. -/
theorem claim_C7_witness :
    (fileReport dbMilano 1 5 ("altro".toList) (some ("short".toList)) true).1
        = FileReportResult.invalidInput ∧
    (fileReport dbMilano 1 5 ("altro".toList) (some ("short".toList)) true).2 = dbMilano :=
  ⟨(claim_C7 dbMilano 1 5 ("altro".toList) (some ("short".toList)) true).1.mpr (by decide),
   (claim_C7 dbMilano 1 5 ("altro".toList) (some ("short".toList)) true).2 (by decide)⟩

/-- C5 counterexample: venue 7 exists and is owned by user 1; the
non-admin, non-owner user 2 deleting venue 7 receives a different
response value (the merged not-found-or-access-denied message) than the
same user deleting the non-existent id 99 (the plain not-found message),
so the two outcomes are observably distinguishable. -/
theorem claim_C5_cex :
    isAdminOf dbOwnedVenue 2 = false ∧
    (∃ v ∈ dbOwnedVenue.sports_venues, v.id = 7 ∧ v.added_by_user_id ≠ some 2) ∧
    dbOwnedVenue.sports_venues.find? (fun v => v.id == 99) = none ∧
    (deleteVenue dbOwnedVenue 7 2).1 ≠ (deleteVenue dbOwnedVenue 99 2).1 := by
  decide

/-- C5 (amended): a non-admin caller who owns no row with the requested
id gets a 404 with the merged not-found-or-access-denied message, and a
caller of a non-existent id gets a 404 with the plain not-found message:
the two responses share the same error status (404) — so the status
leaks no existence information — but their messages differ, so the full
outcomes are distinguishable. -/
theorem claim_C5 (db : DB) (idExist idMissing callerId : Nat)
    (hadmin : isAdminOf db callerId = false)
    (hex : (db.sports_venues.find? (fun v => v.id == idExist)).isSome)
    (hnotown : db.sports_venues.find?
        (fun v => v.id == idExist && v.added_by_user_id == some callerId) = none)
    (hnotownf : db.football_fields.find?
        (fun v => v.id == idExist && v.added_by_user_id == some callerId) = none)
    (hmiss : db.sports_venues.find? (fun v => v.id == idMissing) = none) :
    (deleteVenue db idExist callerId).1 = DeleteVenueResult.notFoundOrDenied ∧
    (deleteVenue db idMissing callerId).1 = DeleteVenueResult.notFound ∧
    deleteStatus (deleteVenue db idExist callerId).1 = 404 ∧
    deleteStatus (deleteVenue db idMissing callerId).1 = 404 := by
  obtain ⟨v, hv⟩ := Option.isSome_iff_exists.mp hex
  have h1 : (deleteVenue db idExist callerId).1 = DeleteVenueResult.notFoundOrDenied := by
    simp [deleteVenue, hadmin, hv, hnotown, hnotownf]
  have h2 : (deleteVenue db idMissing callerId).1 = DeleteVenueResult.notFound := by
    simp [deleteVenue, hmiss]
  exact ⟨h1, h2, by rw [h1]; rfl, by rw [h2]; rfl⟩

/-- Witness for C5 at the concrete state: both requests yield status
404. -/
theorem claim_C5_witness :
    (deleteVenue dbOwnedVenue 7 2).1 = DeleteVenueResult.notFoundOrDenied ∧
    (deleteVenue dbOwnedVenue 99 2).1 = DeleteVenueResult.notFound ∧
    deleteStatus (deleteVenue dbOwnedVenue 7 2).1 = 404 ∧
    deleteStatus (deleteVenue dbOwnedVenue 99 2).1 = 404 :=
  claim_C5 dbOwnedVenue 7 99 2 (by decide) (by decide) (by decide) (by decide) (by decide)

theorem countP_singleton (p : Image → Bool) (a : Image) :
    [a].countP p = if p a then 1 else 0 := by
  simp [List.countP_cons]

theorem countP_erase_key (p : Image → Bool) (l : List Image) (img : Image)
    (hnd : (l.map (fun i => i.id)).Nodup) (hm : img ∈ l) :
    l.countP p
      = (if p img then 1 else 0) + (l.filter (fun i => !(i.id == img.id))).countP p := by
  have hsplit := countP_split p (fun i => i.id == img.id) l
  rw [filter_key_unique (fun i => i.id) l img hnd hm] at hsplit
  rw [hsplit, countP_singleton]

theorem primaryCount_le_imageCount (l : List Image) (vid : Nat) :
    primaryCount l vid ≤ imageCount l vid := by
  unfold primaryCount imageCount
  apply List.countP_mono_left
  intro a _ h
  unfold pPrim at h
  unfold pImg
  exact ((Bool.and_eq_true _ _).mp h).1

theorem eq_of_same_id (l : List Image) (img a : Image)
    (hnd : (l.map (fun i => i.id)).Nodup) (hm : img ∈ l) (ha : a ∈ l)
    (haid : a.id = img.id) : a = img := by
  have hf := filter_key_unique (fun i => i.id) l img hnd hm
  have hmem : a ∈ l.filter (fun x => x.id == img.id) := by
    rw [List.mem_filter]
    exact ⟨ha, by simp [haid]⟩
  rw [hf] at hmem
  simpa using hmem

theorem erase_key_nodup (l : List Image) (m : Nat)
    (hnd : (l.map (fun i => i.id)).Nodup) :
    ((l.filter (fun i => !(i.id == m))).map (fun i => i.id)).Nodup :=
  hnd.sublist ((List.filter_sublist l).map (fun i => i.id))

theorem flag_map_ids (m : Nat) (l : List Image) :
    (l.map (setPrimaryFlag m)).map (fun i => i.id) = l.map (fun i => i.id) := by
  rw [List.map_map]
  apply List.map_congr_left
  intro a _
  exact setPrimaryFlag_id m a

theorem clear_map_ids (p : Nat) (l : List Image) :
    (l.map (clearPrimary p)).map (fun i => i.id) = l.map (fun i => i.id) := by
  rw [List.map_map]
  apply List.map_congr_left
  intro a _
  exact clearPrimary_id p a

theorem attach_list_inv (l : List Image) (p nid at0 u : Nat) (url : Str)
    (hinv : PrimaryInv l) :
    PrimaryInv (l ++
      [{ id := nid, field_id := p, image_url := url, uploaded_by := u,
         uploaded_at := at0,
         is_primary := l.countP (fun i => i.field_id == p) == 0 }]) := by
  intro vid
  have hI := hinv vid
  have hmono := primaryCount_le_imageCount l vid
  unfold primaryCount imageCount at hI hmono ⊢
  rw [List.countP_append, List.countP_append, countP_singleton, countP_singleton]
  unfold pPrim pImg at hI hmono ⊢
  simp only
  by_cases hvp : p = vid
  · subst hvp
    simp only [beq_self_eq_true, Bool.true_and, if_true]
    by_cases hz : l.countP (fun i => i.field_id == p) = 0
    · have hp0 : l.countP (fun i => i.field_id == p && i.is_primary) = 0 := by omega
      simp [hz, hp0]
    · have hpos : 0 < l.countP (fun i => i.field_id == p) := Nat.pos_of_ne_zero hz
      have hone := hI.2 hpos
      have hbz : (l.countP (fun i => i.field_id == p) == 0) = false :=
        beq_eq_false_iff_ne.mpr hz
      simp only [hbz, Bool.and_false, Bool.false_eq_true, if_false]
      constructor
      · omega
      · intro _
        omega
  · have hbf : (p == vid) = false := beq_eq_false_iff_ne.mpr hvp
    simpa [hbf] using hI

theorem setFlag_clear_point (pathId imageId vid : Nat) (a : Image) (hne : vid ≠ pathId)
    (hnot : a.id = imageId → a.field_id = pathId) :
    pPrim vid (setPrimaryFlag imageId (clearPrimary pathId a)) = pPrim vid a := by
  unfold pPrim clearPrimary setPrimaryFlag
  by_cases haf : (a.field_id == pathId) = true
  · have hav : (a.field_id == vid) = false := by
      have := beq_iff_eq.mp haf
      exact beq_eq_false_iff_ne.mpr (fun h => hne (h ▸ this ▸ rfl))
    by_cases haid : (a.id == imageId) = true <;> simp [haf, haid, hav]
  · have haf' : (a.field_id == pathId) = false := by
      revert haf; cases a.field_id == pathId <;> simp
    by_cases haid : (a.id == imageId) = true
    · exact absurd (hnot (beq_iff_eq.mp haid)) (by simpa using haf')
    · have haid' : (a.id == imageId) = false := by
        revert haid; cases a.id == imageId <;> simp
      simp [haf', haid']

theorem setPrimary_list_inv (l : List Image) (pathId imageId : Nat) (img : Image)
    (hnd : (l.map (fun i => i.id)).Nodup)
    (hm : img ∈ l) (hid : img.id = imageId) (hfield : img.field_id = pathId)
    (hinv : PrimaryInv l) :
    PrimaryInv ((l.map (clearPrimary pathId)).map (setPrimaryFlag imageId)) := by
  intro vid
  unfold primaryCount imageCount
  rw [List.map_map, List.countP_map, List.countP_map]
  simp only [Function.comp_def]
  have himgc : l.countP (fun i => pImg vid (setPrimaryFlag imageId (clearPrimary pathId i)))
      = l.countP (pImg vid) := by
    apply List.countP_congr
    intro a _
    unfold pImg
    rw [setPrimaryFlag_field, clearPrimary_field]
  rw [himgc]
  by_cases hvp : vid = pathId
  · subst hvp
    have hpoint : ∀ a ∈ l,
        (pPrim vid (setPrimaryFlag imageId (clearPrimary vid a))) = (a.id == imageId) := by
      intro a ha
      by_cases haid : a.id = imageId
      · have haimg : a = img := eq_of_same_id l img a hnd hm ha (haid.trans hid.symm)
        subst haimg
        unfold pPrim clearPrimary setPrimaryFlag
        simp [hfield, hid, haid]
      · have haid' : (a.id == imageId) = false := beq_eq_false_iff_ne.mpr haid
        unfold pPrim clearPrimary setPrimaryFlag
        by_cases haf : (a.field_id == vid) = true <;> simp [haf, haid']
    rw [List.countP_congr (fun a ha => by rw [hpoint a ha])]
    have hone : l.countP (fun a => a.id == imageId) = 1 := by
      have := countP_key_unique (fun i => i.id) l img hnd hm
      simpa [hid] using this
    rw [hone]
    exact ⟨le_rfl, fun _ => rfl⟩
  · have hpoint : ∀ a ∈ l,
        (pPrim vid (setPrimaryFlag imageId (clearPrimary pathId a))) = pPrim vid a := by
      intro a ha
      apply setFlag_clear_point pathId imageId vid a hvp
      intro haid
      have haimg : a = img := eq_of_same_id l img a hnd hm ha (haid.trans hid.symm)
      rw [haimg, hfield]
    rw [List.countP_congr (fun a ha => by rw [hpoint a ha])]
    exact hinv vid

theorem remove_nonprim_inv (l : List Image) (img : Image)
    (hnd : (l.map (fun i => i.id)).Nodup) (hm : img ∈ l)
    (hinv : PrimaryInv l) (hprim : img.is_primary = false) :
    PrimaryInv (l.filter (fun i => !(i.id == img.id))) := by
  intro vid
  have hI := hinv vid
  have hp := countP_erase_key (pPrim vid) l img hnd hm
  have hq := countP_erase_key (pImg vid) l img hnd hm
  unfold primaryCount imageCount at hI ⊢
  have hpf : pPrim vid img = false := by
    unfold pPrim
    simp [hprim]
  rw [hpf] at hp
  simp at hp
  by_cases hvi : pImg vid img = true
  · rw [hvi] at hq
    simp at hq
    constructor
    · omega
    · intro hpos
      have hl : 0 < l.countP (pImg vid) := by omega
      have := hI.2 hl
      omega
  · have hvf : pImg vid img = false := by
      revert hvi
      cases pImg vid img <;> simp
    rw [hvf] at hq
    simp at hq
    constructor
    · omega
    · intro hpos
      have hl : 0 < l.countP (pImg vid) := by omega
      have := hI.2 hl
      omega

theorem prim_self (img : Image) (h : img.is_primary = true) :
    pPrim img.field_id img = true := by
  unfold pPrim
  simp [h]

theorem remove_prim_zero (l : List Image) (img : Image)
    (hnd : (l.map (fun i => i.id)).Nodup) (hm : img ∈ l)
    (hinv : PrimaryInv l) (hprim : img.is_primary = true) :
    (l.filter (fun i => !(i.id == img.id))).countP (pPrim img.field_id) = 0 := by
  have hp := countP_erase_key (pPrim img.field_id) l img hnd hm
  rw [prim_self img hprim] at hp
  simp at hp
  have := (hinv img.field_id).1
  unfold primaryCount at this
  omega

theorem remove_prim_promote (l : List Image) (img j : Image)
    (hnd : (l.map (fun i => i.id)).Nodup) (hm : img ∈ l)
    (hinv : PrimaryInv l) (hprim : img.is_primary = true)
    (hold : oldestImage ((l.filter (fun i => !(i.id == img.id))).filter
        (fun i => i.field_id == img.field_id)) = some j) :
    PrimaryInv ((l.filter (fun i => !(i.id == img.id))).map (setPrimaryFlag j.id)) ∧
    ∃ jj ∈ (l.filter (fun i => !(i.id == img.id))).map (setPrimaryFlag j.id),
      jj.field_id = img.field_id ∧ jj.is_primary = true ∧
      ∀ k ∈ (l.filter (fun i => !(i.id == img.id))).map (setPrimaryFlag j.id),
        k.field_id = img.field_id → jj.uploaded_at ≤ k.uploaded_at := by
  have hndD := erase_key_nodup l img.id hnd
  have hzero := remove_prim_zero l img hnd hm hinv hprim
  have hjR := oldestImage_mem hold
  have hjD : j ∈ l.filter (fun i => !(i.id == img.id)) := (List.mem_filter.mp hjR).1
  have hjf : j.field_id = img.field_id := by
    have := (List.mem_filter.mp hjR).2
    simpa using this
  constructor
  · intro vid
    unfold primaryCount imageCount
    rw [List.countP_map, List.countP_map]
    simp only [Function.comp_def]
    have himgc : (l.filter (fun i => !(i.id == img.id))).countP
          (fun i => pImg vid (setPrimaryFlag j.id i))
        = (l.filter (fun i => !(i.id == img.id))).countP (pImg vid) := by
      apply List.countP_congr
      intro a _
      unfold pImg
      rw [setPrimaryFlag_field]
    rw [himgc]
    by_cases hvp : vid = img.field_id
    · have hpoint : ∀ a ∈ l.filter (fun i => !(i.id == img.id)),
          pPrim vid (setPrimaryFlag j.id a) = (a.id == j.id) := by
        intro a ha
        by_cases haid : a.id = j.id
        · have haj : a = j := eq_of_same_id _ j a hndD hjD ha haid
          have hbid : (a.id == j.id) = true := beq_iff_eq.mpr haid
          have hsf : setPrimaryFlag j.id a = { a with is_primary := true } := by
            unfold setPrimaryFlag
            rw [hbid]
            simp
          have hfv : (a.field_id == vid) = true :=
            beq_iff_eq.mpr (by rw [haj, hjf, hvp])
          rw [hsf]
          unfold pPrim
          simp [hfv, hbid]
        · have haid' : (a.id == j.id) = false := beq_eq_false_iff_ne.mpr haid
          have hsf : setPrimaryFlag j.id a = a := by
            unfold setPrimaryFlag
            rw [haid']
            simp
          rw [hsf, haid', hvp]
          have hz := List.countP_eq_zero.mp hzero a ha
          revert hz
          cases pPrim img.field_id a <;> simp
      rw [List.countP_congr (fun a ha => by rw [hpoint a ha])]
      have hone := countP_key_unique (fun i => i.id)
        (l.filter (fun i => !(i.id == img.id))) j hndD hjD
      rw [hone]
      exact ⟨le_rfl, fun _ => rfl⟩
    · have hpoint : ∀ a ∈ l.filter (fun i => !(i.id == img.id)),
          pPrim vid (setPrimaryFlag j.id a) = pPrim vid a := by
        intro a ha
        by_cases haid : a.id = j.id
        · have haj : a = j := eq_of_same_id _ j a hndD hjD ha haid
          have hbid : (a.id == j.id) = true := beq_iff_eq.mpr haid
          have hsf : setPrimaryFlag j.id a = { a with is_primary := true } := by
            unfold setPrimaryFlag
            rw [hbid]
            simp
          have hafv : (a.field_id == vid) = false := by
            rw [haj, hjf]
            exact beq_eq_false_iff_ne.mpr (fun h => hvp h.symm)
          rw [hsf]
          unfold pPrim
          simp [hafv]
        · have haid' : (a.id == j.id) = false := beq_eq_false_iff_ne.mpr haid
          have hsf : setPrimaryFlag j.id a = a := by
            unfold setPrimaryFlag
            rw [haid']
            simp
          rw [hsf]
      rw [List.countP_congr (fun a ha => by rw [hpoint a ha])]
      have hfv : pPrim vid img = false := by
        unfold pPrim
        have hb : (img.field_id == vid) = false :=
          beq_eq_false_iff_ne.mpr (fun h => hvp h.symm)
        simp [hb]
      have hiv : pImg vid img = false := by
        unfold pImg
        exact beq_eq_false_iff_ne.mpr (fun h => hvp h.symm)
      have hp := countP_erase_key (pPrim vid) l img hnd hm
      have hq := countP_erase_key (pImg vid) l img hnd hm
      rw [hfv] at hp
      rw [hiv] at hq
      simp at hp hq
      have hI := hinv vid
      unfold primaryCount imageCount at hI
      constructor
      · omega
      · intro hpos
        have hl : 0 < l.countP (pImg vid) := by omega
        have := hI.2 hl
        omega
  · refine ⟨setPrimaryFlag j.id j, List.mem_map_of_mem _ hjD, ?_, ?_, ?_⟩
    · rw [setPrimaryFlag_field, hjf]
    · unfold setPrimaryFlag
      simp
    · intro k hk hkf
      obtain ⟨a, haD, hak⟩ := List.mem_map.mp hk
      have haf : a.field_id = img.field_id := by
        rw [← hkf, ← hak, setPrimaryFlag_field]
      have haR : a ∈ (l.filter (fun i => !(i.id == img.id))).filter
          (fun i => i.field_id == img.field_id) := by
        rw [List.mem_filter]
        exact ⟨haD, by simp [haf]⟩
      have hmin := oldestImage_min hold a haR
      rw [setPrimaryFlag_at, ← hak, setPrimaryFlag_at]
      exact hmin

theorem erase_key_inv_at (l : List Image) (img : Image) (vid : Nat)
    (hnd : (l.map (fun i => i.id)).Nodup) (hm : img ∈ l) (hinv : PrimaryInv l)
    (hfv : pPrim vid img = false) (hiv : pImg vid img = false) :
    primaryCount (l.filter (fun i => !(i.id == img.id))) vid ≤ 1 ∧
    (0 < imageCount (l.filter (fun i => !(i.id == img.id))) vid →
      primaryCount (l.filter (fun i => !(i.id == img.id))) vid = 1) := by
  have hp := countP_erase_key (pPrim vid) l img hnd hm
  have hq := countP_erase_key (pImg vid) l img hnd hm
  rw [hfv] at hp
  rw [hiv] at hq
  simp at hp hq
  have hI := hinv vid
  unfold primaryCount imageCount at hI ⊢
  constructor
  · omega
  · intro hpos
    have hl : 0 < l.countP (pImg vid) := by omega
    have := hI.2 hl
    omega

theorem remove_prim_nosurvivor_inv (l : List Image) (img : Image)
    (hnd : (l.map (fun i => i.id)).Nodup) (hm : img ∈ l)
    (hinv : PrimaryInv l) (_hprim : img.is_primary = true)
    (hempty : (l.filter (fun i => !(i.id == img.id))).filter
        (fun i => i.field_id == img.field_id) = []) :
    PrimaryInv (l.filter (fun i => !(i.id == img.id))) := by
  intro vid
  by_cases hvp : vid = img.field_id
  · have hc : imageCount (l.filter (fun i => !(i.id == img.id))) vid = 0 := by
      unfold imageCount pImg
      rw [List.countP_eq_length_filter, hvp, hempty]
      rfl
    have hmono := primaryCount_le_imageCount (l.filter (fun i => !(i.id == img.id))) vid
    constructor
    · omega
    · intro hpos
      omega
  · have hfv : pPrim vid img = false := by
      unfold pPrim
      have hb : (img.field_id == vid) = false :=
        beq_eq_false_iff_ne.mpr (fun h => hvp h.symm)
      simp [hb]
    have hiv : pImg vid img = false := by
      unfold pImg
      exact beq_eq_false_iff_ne.mpr (fun h => hvp h.symm)
    exact erase_key_inv_at l img vid hnd hm hinv hfv hiv

theorem flag_bound (m n : Nat) (l : List Image) (h : ∀ i ∈ l, i.id < n) :
    ∀ i ∈ l.map (setPrimaryFlag m), i.id < n := by
  intro a ha
  obtain ⟨b, hb, hba⟩ := List.mem_map.mp ha
  rw [← hba, setPrimaryFlag_id]
  exact h b hb

theorem filter_bound (q : Image → Bool) (n : Nat) (l : List Image) (h : ∀ i ∈ l, i.id < n) :
    ∀ i ∈ l.filter q, i.id < n :=
  fun i hi => h i (List.mem_filter.mp hi).1

theorem attach_preserves_WF (db : DB) (p u : Nat) (url : Str) (hwf : WF db) :
    WF (attachImage db p u url).2 := by
  obtain ⟨hinv, hnd, hbound⟩ := hwf
  unfold attachImage
  cases hfind : db.sports_venues.find? (fun v => v.id == p) with
  | none => exact ⟨hinv, hnd, hbound⟩
  | some v =>
    dsimp only
    refine ⟨attach_list_inv db.field_images p db.next_image_id db.clock u url hinv, ?_, ?_⟩
    · rw [List.map_append, List.nodup_append]
      refine ⟨hnd, List.nodup_singleton _, ?_⟩
      intro a ha hb
      simp only [List.map_cons, List.map_nil, List.mem_singleton] at hb
      obtain ⟨i, hi, hia⟩ := List.mem_map.mp ha
      have := hbound i hi
      omega
    · intro i hi
      dsimp only at hi ⊢
      rcases List.mem_append.mp hi with hold | hnew
      · have := hbound i hold
        omega
      · simp only [List.mem_singleton] at hnew
        rw [hnew]
        dsimp only
        omega

theorem setPrimary_preserves_WF (db : DB) (p m c : Nat) (hwf : WF db) :
    WF (setPrimaryImage db p m c).2 := by
  obtain ⟨hinv, hnd, hbound⟩ := hwf
  unfold setPrimaryImage
  cases hfind : db.field_images.find? (fun x => x.id == m && x.field_id == p) with
  | none => exact ⟨hinv, hnd, hbound⟩
  | some img =>
    have hmem := List.mem_of_find?_eq_some hfind
    have hpred := List.find?_some hfind
    have hid : img.id = m := beq_iff_eq.mp ((Bool.and_eq_true _ _).mp hpred).1
    have hfield : img.field_id = p := beq_iff_eq.mp ((Bool.and_eq_true _ _).mp hpred).2
    refine ⟨setPrimary_list_inv db.field_images p m img hnd hmem hid hfield hinv, ?_, ?_⟩
    · rw [flag_map_ids, clear_map_ids]
      exact hnd
    · intro a ha
      obtain ⟨b, hb, hba⟩ := List.mem_map.mp ha
      obtain ⟨b0, hb0, hb0b⟩ := List.mem_map.mp hb
      have hids : a.id = b0.id := by
        rw [← hba, setPrimaryFlag_id, ← hb0b, clearPrimary_id]
      rw [hids]
      exact hbound b0 hb0

theorem remove_preserves_WF (db : DB) (p m c : Nat) (hwf : WF db)
    (haddr : ∀ img, db.field_images.find? (fun x => x.id == m) = some img →
      img.field_id = p) :
    WF (removeImage db p m c).2 := by
  obtain ⟨hinv, hnd, hbound⟩ := hwf
  unfold removeImage
  cases hfind : db.field_images.find? (fun x => x.id == m) with
  | none => exact ⟨hinv, hnd, hbound⟩
  | some img =>
    have hmem := List.mem_of_find?_eq_some hfind
    have hid : img.id = m := by simpa using List.find?_some hfind
    have hfield := haddr img hfind
    dsimp only
    by_cases hauth : (img.uploaded_by != c) = true
    · rw [if_pos hauth]
      exact ⟨hinv, hnd, hbound⟩
    · rw [if_neg hauth]
      rw [← hid, ← hfield]
      by_cases hpr : img.is_primary = true
      · rw [if_pos hpr]
        cases hold : oldestImage ((db.field_images.filter
            (fun i => !(i.id == img.id))).filter (fun i => i.field_id == img.field_id)) with
        | none =>
          have hempty := oldestImage_eq_none.mp hold
          refine ⟨remove_prim_nosurvivor_inv db.field_images img hnd hmem hinv hpr hempty,
            erase_key_nodup db.field_images img.id hnd, ?_⟩
          exact filter_bound _ _ _ hbound
        | some j =>
          have hmain := remove_prim_promote db.field_images img j hnd hmem hinv hpr hold
          refine ⟨hmain.1, ?_, ?_⟩
          · rw [flag_map_ids]
            exact erase_key_nodup db.field_images img.id hnd
          · exact flag_bound _ _ _ (filter_bound _ _ _ hbound)
      · have hpr' : img.is_primary = false := by
          revert hpr
          cases img.is_primary <;> simp
        rw [if_neg (by rw [hpr']; exact Bool.false_ne_true)]
        refine ⟨remove_nonprim_inv db.field_images img hnd hmem hinv hpr',
          erase_key_nodup db.field_images img.id hnd, ?_⟩
        exact filter_bound _ _ _ hbound

theorem wellAddressed_preserves_WF (db : DB) (ops : List ImageOp) (hwf : WF db)
    (haddr : wellAddressed db ops = true) : WF (applyOps db ops) := by
  induction ops generalizing db with
  | nil => exact hwf
  | cons op ops ih =>
    unfold wellAddressed at haddr
    have hsplit := (Bool.and_eq_true _ _).mp haddr
    have hstep : WF (applyOp db op) := by
      cases op with
      | attach p u url => exact attach_preserves_WF db p u url hwf
      | makePrimary p i c => exact setPrimary_preserves_WF db p i c hwf
      | remove p i c =>
        apply remove_preserves_WF db p i c hwf
        intro img hfind
        have h1 := hsplit.1
        dsimp only at h1
        rw [hfind] at h1
        dsimp only at h1
        exact beq_iff_eq.mp h1
    have hstepeq : applyOps db (op :: ops) = applyOps (applyOp db op) ops := rfl
    rw [hstepeq]
    exact ih (applyOp db op) hstep hsplit.2

/-- C1 counterexample: starting from a venue with no images, the
sequence attach, attach, remove — where the remove is authorized, names
an existing image, and is routed through a path venue id different from
the image's venue — leaves the venue with one image and no primary, so
the invariant is not preserved by every sequence of attach, remove and
set-primary requests. -/
theorem claim_C1_cex :
    dbOneVenue.field_images = [] ∧
    ¬ PrimaryInv (applyOps dbOneVenue opsMismatchedRemove).field_images := by
  refine ⟨rfl, fun h => ?_⟩
  have h2 := (h 1).2 (by decide)
  revert h2
  decide

/-- C1 (amended): the attach route flags the new image as primary
exactly when the venue previously had zero images, and the primary-image
invariant (at most one primary per venue; exactly one when the venue has
images) is preserved by every sequence of attach, remove and set-primary
requests from an image-free state in which every remove of an existing
image is routed through the image's own venue id (the code never checks
this; a remove routed through another venue id can break the invariant,
see the counterexample). -/
theorem claim_C1 :
    (∀ (db : DB) (p u : Nat) (url : Str) (img : Image),
      (attachImage db p u url).2.field_images = db.field_images ++ [img] →
      (img.is_primary = true ↔ imageCount db.field_images p = 0)) ∧
    (∀ (db : DB) (ops : List ImageOp), db.field_images = [] →
      wellAddressed db ops = true → PrimaryInv (applyOps db ops).field_images) := by
  constructor
  · intro db p u url img h
    unfold attachImage at h
    cases hfind : db.sports_venues.find? (fun v => v.id == p) with
    | none =>
      rw [hfind] at h
      dsimp only at h
      have hlen := congrArg List.length h
      simp at hlen
    | some v =>
      rw [hfind] at h
      dsimp only at h
      have hsing := List.append_cancel_left h
      injection hsing with hhead htail
      rw [← hhead]
      unfold imageCount pImg
      dsimp only
      exact beq_iff_eq
  · intro db ops hempty haddr
    have hwf : WF db := by
      refine ⟨?_, ?_, ?_⟩ <;> rw [hempty]
      · intro vid
        unfold primaryCount imageCount
        simp
      · simp
      · simp
    exact (wellAddressed_preserves_WF db ops hwf haddr).1

/-- Witness for C1: the same two attaches followed by a remove routed
through the image's own venue id keep the invariant, and the first
attached image of the empty venue is flagged primary. -/
theorem claim_C1_witness :
    (wellAddressed dbOneVenue opsMatchedRemove = true ∧
      PrimaryInv (applyOps dbOneVenue opsMatchedRemove).field_images) ∧
    ({ id := 1, field_id := 1, image_url := [], uploaded_by := 10, uploaded_at := 0,
        is_primary := true : Image }.is_primary = true ↔
      imageCount dbOneVenue.field_images 1 = 0) :=
  ⟨⟨by decide, claim_C1.2 dbOneVenue opsMatchedRemove rfl (by decide)⟩,
   claim_C1.1 dbOneVenue 1 10 []
     { id := 1, field_id := 1, image_url := [], uploaded_by := 10, uploaded_at := 0,
       is_primary := true } (by decide)⟩

theorem primaryInv_of_B (l : List Image) (h : primaryInvB l = true) : PrimaryInv l := by
  intro vid
  have hmono := primaryCount_le_imageCount l vid
  by_cases hz : imageCount l vid = 0
  · constructor
    · omega
    · intro hpos
      omega
  · have hpos : 0 < imageCount l vid := Nat.pos_of_ne_zero hz
    unfold imageCount at hpos
    obtain ⟨a, ha, hafield⟩ := List.countP_pos_iff.mp hpos
    have haf : a.field_id = vid := by
      unfold pImg at hafield
      exact beq_iff_eq.mp hafield
    have hvidmem : vid ∈ l.map (fun i => i.field_id) := by
      rw [← haf]
      exact List.mem_map_of_mem _ ha
    have hone := List.all_eq_true.mp h vid hvidmem
    have hone' : l.countP (pPrim vid) = 1 := beq_iff_eq.mp hone
    unfold primaryCount
    exact ⟨le_of_eq hone', fun _ => hone'⟩

/-- C3: an authorized remove of a primary image, routed through the
image's own venue id, deletes it; if at least one image of that venue
remains, exactly one remaining image is primary and it is one with the
earliest upload time; if none remains, the venue has zero images and no
primary. -/
theorem claim_C3 (db : DB) (pathId imageId callerId : Nat) (img : Image)
    (hfind : db.field_images.find? (fun i => i.id == imageId) = some img)
    (hauth : img.uploaded_by = callerId)
    (hprim : img.is_primary = true)
    (hpath : pathId = img.field_id)
    (hnd : (db.field_images.map (fun i => i.id)).Nodup)
    (hinv : PrimaryInv db.field_images) :
    (removeImage db pathId imageId callerId).1 = RemoveResult.deleted ∧
    (0 < imageCount (removeImage db pathId imageId callerId).2.field_images pathId →
      primaryCount (removeImage db pathId imageId callerId).2.field_images pathId = 1 ∧
      ∃ jj ∈ (removeImage db pathId imageId callerId).2.field_images,
        jj.field_id = pathId ∧ jj.is_primary = true ∧
        ∀ k ∈ (removeImage db pathId imageId callerId).2.field_images,
          k.field_id = pathId → jj.uploaded_at ≤ k.uploaded_at) ∧
    (imageCount (removeImage db pathId imageId callerId).2.field_images pathId = 0 →
      primaryCount (removeImage db pathId imageId callerId).2.field_images pathId = 0) := by
  have hmem := List.mem_of_find?_eq_some hfind
  have hid : img.id = imageId := by simpa using List.find?_some hfind
  have hbne : (img.uploaded_by != callerId) = false := by simp [hauth]
  unfold removeImage
  rw [hfind]
  dsimp only
  rw [if_neg (by rw [hbne]; exact Bool.false_ne_true), if_pos hprim, hpath, ← hid]
  cases hold : oldestImage ((db.field_images.filter
      (fun i => !(i.id == img.id))).filter (fun i => i.field_id == img.field_id)) with
  | none =>
    have hempty := oldestImage_eq_none.mp hold
    dsimp only
    have hc : imageCount (db.field_images.filter (fun i => !(i.id == img.id)))
        img.field_id = 0 := by
      unfold imageCount pImg
      rw [List.countP_eq_length_filter, hempty]
      rfl
    have hmono := primaryCount_le_imageCount
      (db.field_images.filter (fun i => !(i.id == img.id))) img.field_id
    refine ⟨rfl, ?_, ?_⟩
    · intro hpos
      omega
    · intro _
      omega
  | some j =>
    have hmain := remove_prim_promote db.field_images img j hnd hmem hinv hprim hold
    dsimp only
    have hmono := primaryCount_le_imageCount
      ((db.field_images.filter (fun i => !(i.id == img.id))).map (setPrimaryFlag j.id))
      img.field_id
    refine ⟨rfl, ?_, ?_⟩
    · intro hpos
      exact ⟨(hmain.1 img.field_id).2 hpos, hmain.2⟩
    · intro h0
      omega

/-- Witness for C3 at a concrete state: venue 1 has images 1 (primary,
earliest), 2 and 3; removing image 1 promotes image 2, the
earliest-uploaded survivor. -/
theorem claim_C3_witness :
    (removeImage dbThreeImages 1 1 10).1 = RemoveResult.deleted ∧
    (0 < imageCount (removeImage dbThreeImages 1 1 10).2.field_images 1 →
      primaryCount (removeImage dbThreeImages 1 1 10).2.field_images 1 = 1 ∧
      ∃ jj ∈ (removeImage dbThreeImages 1 1 10).2.field_images,
        jj.field_id = 1 ∧ jj.is_primary = true ∧
        ∀ k ∈ (removeImage dbThreeImages 1 1 10).2.field_images,
          k.field_id = 1 → jj.uploaded_at ≤ k.uploaded_at) ∧
    (imageCount (removeImage dbThreeImages 1 1 10).2.field_images 1 = 0 →
      primaryCount (removeImage dbThreeImages 1 1 10).2.field_images 1 = 0) :=
  claim_C3 dbThreeImages 1 1 10 img1 (by decide) (by decide) (by decide) (by decide)
    (by decide) (primaryInv_of_B _ (by decide))

/-- C9: the remove route never checks that the image belongs to the path
venue id: for an existing image whose uploader is the caller, deletion
succeeds for every path venue id; and when the deleted image was primary
and the path venue id differs from the image's venue, no remaining image
of the image's actual venue is promoted — the actual venue is left with
images but no primary. -/
theorem claim_C9 (db : DB) (pathId imageId callerId : Nat) (img : Image)
    (hfind : db.field_images.find? (fun i => i.id == imageId) = some img)
    (hauth : img.uploaded_by = callerId)
    (hnd : (db.field_images.map (fun i => i.id)).Nodup)
    (hinv : PrimaryInv db.field_images) :
    (removeImage db pathId imageId callerId).1 = RemoveResult.deleted ∧
    (img.is_primary = true → pathId ≠ img.field_id →
      primaryCount (removeImage db pathId imageId callerId).2.field_images img.field_id
        = 0) := by
  have hmem := List.mem_of_find?_eq_some hfind
  have hid : img.id = imageId := by simpa using List.find?_some hfind
  have hbne : (img.uploaded_by != callerId) = false := by simp [hauth]
  unfold removeImage
  rw [hfind]
  dsimp only
  rw [if_neg (by rw [hbne]; exact Bool.false_ne_true), ← hid]
  constructor
  · rfl
  · intro hprim hne
    rw [if_pos hprim]
    have hzero := remove_prim_zero db.field_images img hnd hmem hinv hprim
    cases hold : oldestImage ((db.field_images.filter
        (fun i => !(i.id == img.id))).filter (fun i => i.field_id == pathId)) with
    | none =>
      dsimp only
      exact hzero
    | some j =>
      dsimp only
      have hndD := erase_key_nodup db.field_images img.id hnd
      have hjR := oldestImage_mem hold
      have hjD : j ∈ db.field_images.filter (fun i => !(i.id == img.id)) :=
        (List.mem_filter.mp hjR).1
      have hjf : j.field_id = pathId := by
        have := (List.mem_filter.mp hjR).2
        simpa using this
      unfold primaryCount
      rw [List.countP_map]
      simp only [Function.comp_def]
      have hpoint : ∀ a ∈ db.field_images.filter (fun i => !(i.id == img.id)),
          pPrim img.field_id (setPrimaryFlag j.id a) = pPrim img.field_id a := by
        intro a ha
        by_cases haid : a.id = j.id
        · have haj : a = j := eq_of_same_id _ j a hndD hjD ha haid
          have hbid : (a.id == j.id) = true := beq_iff_eq.mpr haid
          have hsf : setPrimaryFlag j.id a = { a with is_primary := true } := by
            unfold setPrimaryFlag
            rw [hbid]
            simp
          have hafv : (a.field_id == img.field_id) = false := by
            rw [haj, hjf]
            exact beq_eq_false_iff_ne.mpr (fun h => hne h)
          rw [hsf]
          unfold pPrim
          simp [hafv]
        · have haid' : (a.id == j.id) = false := beq_eq_false_iff_ne.mpr haid
          have hsf : setPrimaryFlag j.id a = a := by
            unfold setPrimaryFlag
            rw [haid']
            simp
          rw [hsf]
      rw [List.countP_congr (fun a ha => by rw [hpoint a ha])]
      exact hzero

/-- Witness for C9 at a concrete state: image 1 (primary, venue 1) is
removed through a path naming venue 2; the call succeeds and venue 1 is
left with image 2 and no primary. -/
theorem claim_C9_witness :
    (removeImage dbTwoVenuesImages 2 1 10).1 = RemoveResult.deleted ∧
    primaryCount (removeImage dbTwoVenuesImages 2 1 10).2.field_images 1 = 0 :=
  ⟨(claim_C9 dbTwoVenuesImages 2 1 10 img1 (by decide) (by decide) (by decide)
      (primaryInv_of_B _ (by decide))).1,
   (claim_C9 dbTwoVenuesImages 2 1 10 img1 (by decide) (by decide) (by decide)
      (primaryInv_of_B _ (by decide))).2 (by decide) (by decide)⟩

theorem lowered_append (a b : Str) : lowered (a ++ b) = lowered a ++ lowered b :=
  List.map_append _ a b

theorem likeSuffix_iff (f : Str → Bool) (s : Str) :
    likeSuffix f s = true ↔ ∃ a b, s = a ++ b ∧ f b = true := by
  induction s with
  | nil =>
    unfold likeSuffix
    constructor
    · intro h
      exact ⟨[], [], rfl, h⟩
    · rintro ⟨a, b, hab, hfb⟩
      have ha : a = [] := by
        cases a with
        | nil => rfl
        | cons x xs => cases hab
      have hb : b = [] := by
        rw [ha] at hab
        exact hab.symm
      rw [← hb]
      exact hfb
  | cons d s2 ih =>
    unfold likeSuffix
    rw [Bool.or_eq_true, ih]
    constructor
    · rintro (hf | ⟨a, b, hab, hfb⟩)
      · exact ⟨[], d :: s2, rfl, hf⟩
      · exact ⟨d :: a, b, by rw [List.cons_append, hab], hfb⟩
    · rintro ⟨a, b, hab, hfb⟩
      cases a with
      | nil =>
        left
        simp only [List.nil_append] at hab
        rw [← hab] at hfb
        exact hfb
      | cons x a' =>
        right
        rw [List.cons_append] at hab
        injection hab with h1 h2
        exact ⟨a', b, h2, hfb⟩

theorem likeMatch_nil_pct (s : Str) : likeMatch (['%'] : Str) s = true := by
  show likeMatch ('%' :: ([] : Str)) s = true
  unfold likeMatch
  rw [if_neg (by decide), if_pos (by decide)]
  apply (likeSuffix_iff _ s).mpr
  exact ⟨s, [], by simp, rfl⟩

theorem likeMatch_lit_pct : ∀ (p : Str), wildcardFree p = true →
    ∀ s, (likeMatch (p ++ ['%']) s = true ↔ ∃ t, lowered s = lowered p ++ t) := by
  intro p
  induction p with
  | nil =>
    intro _ s
    constructor
    · intro _
      exact ⟨lowered s, by simp [lowered]⟩
    · intro _
      simpa using likeMatch_nil_pct s
  | cons c p' ih =>
    intro hwf s
    unfold wildcardFree at hwf
    rw [List.all_cons] at hwf
    simp only [Bool.and_eq_true] at hwf
    obtain ⟨⟨⟨hcp, hcu⟩, hcb⟩, hrest⟩ := hwf
    have hwf' : wildcardFree p' = true := hrest
    have hcp' : (c == '%') = false := by
      revert hcp
      cases c == '%' <;> simp
    have hcu' : (c == '_') = false := by
      revert hcu
      cases c == '_' <;> simp
    have hcb' : (c == '\\') = false := by
      revert hcb
      cases c == '\\' <;> simp
    have hnotpct : ¬ ((c == '%') = true) := by
      rw [hcp']
      exact Bool.false_ne_true
    have hnotesc : ¬ ((c == '\\') = true) := by
      rw [hcb']
      exact Bool.false_ne_true
    cases s with
    | nil =>
      rw [List.cons_append]
      constructor
      · intro h
        unfold likeMatch at h
        rw [if_neg hnotesc, if_neg hnotpct] at h
        cases h
      · rintro ⟨t, ht⟩
        exfalso
        simp [lowered] at ht
    | cons d s2 =>
      rw [List.cons_append]
      unfold likeMatch
      rw [if_neg hnotesc, if_neg hnotpct]
      dsimp only
      rw [hcu', Bool.false_or, Bool.and_eq_true]
      constructor
      · rintro ⟨hcd, hrest2⟩
        obtain ⟨t, ht⟩ := (ih hwf' s2).mp hrest2
        refine ⟨t, ?_⟩
        unfold lowered at ht ⊢
        simp only [List.map_cons, List.cons_append]
        rw [beq_iff_eq.mp hcd, ht]
      · rintro ⟨t, ht⟩
        unfold lowered at ht
        simp only [List.map_cons, List.cons_append] at ht
        injection ht with h1 h2
        constructor
        · exact beq_iff_eq.mpr h1.symm
        · exact (ih hwf' s2).mpr ⟨t, h2⟩

theorem ilikeContains_iff (p : Str) (hwf : wildcardFree p = true) (s : Str) :
    ilikeContains p s = true ↔ lowered p <:+: lowered s := by
  unfold ilikeContains
  show likeMatch ('%' :: (p ++ ['%'])) s = true ↔ _
  unfold likeMatch
  rw [if_neg (by decide), if_pos (by decide)]
  rw [likeSuffix_iff]
  constructor
  · rintro ⟨a, b, hab, hfb⟩
    obtain ⟨t, ht⟩ := (likeMatch_lit_pct p hwf b).mp hfb
    refine ⟨lowered a, t, ?_⟩
    rw [hab, lowered_append, ht, List.append_assoc]
  · rintro ⟨a, b, hab⟩
    refine ⟨s.take a.length, s.drop a.length, (List.take_append_drop _ s).symm, ?_⟩
    apply (likeMatch_lit_pct p hwf _).mpr
    refine ⟨b, ?_⟩
    have hdrop : lowered (List.drop a.length s) = (lowered s).drop a.length :=
      List.map_drop _ s a.length
    rw [hdrop, ← hab, List.append_assoc, List.drop_left]

theorem colLike_iff (filt col : Option Str)
    (hwf : wildcardFree (filt.getD []) = true) :
    colLike filt col = true ↔ specColContains filt col := by
  cases filt with
  | none =>
    unfold colLike specColContains truthy
    simp
  | some f =>
    by_cases hfe : f.isEmpty = true
    · have ht : truthy (some f) = none := by
        unfold truthy
        dsimp only
        rw [if_pos hfe]
      unfold colLike specColContains
      rw [ht]
      simp
    · have ht : truthy (some f) = some f := by
        unfold truthy
        dsimp only
        rw [if_neg hfe]
      unfold colLike specColContains
      rw [ht]
      dsimp only
      cases col with
      | none => simp
      | some c =>
        rw [ilikeContains_iff f hwf c]
        constructor
        · intro h
          exact ⟨c, rfl, h⟩
        · rintro ⟨c', hc', hinf⟩
          injection hc' with he
          rw [he]
          exact hinf

theorem venueMatches_iff (q : VenueFilters) (v : Venue)
    (hwf : wildcardFreeFilters q = true) :
    venueMatches q v = true ↔ specVenueMatches q v := by
  unfold wildcardFreeFilters at hwf
  simp only [Bool.and_eq_true] at hwf
  obtain ⟨⟨hc, hp⟩, hr⟩ := hwf
  unfold venueMatches specVenueMatches
  simp only [Bool.and_eq_true]
  rw [colLike_iff q.city v.city hc, colLike_iff q.province v.province hp,
    colLike_iff q.region v.region hr]
  tauto

theorem perm_insertDesc (r : VenueRow) (l : List VenueRow) :
    (insertDesc r l).Perm (r :: l) := by
  induction l with
  | nil => exact List.Perm.refl _
  | cons x xs ih =>
    unfold insertDesc
    by_cases hcmp : x.venue.created_at < r.venue.created_at
    · rw [if_pos hcmp]
    · rw [if_neg hcmp]
      exact (ih.cons x).trans (List.Perm.swap r x xs)

theorem mem_insertDesc (r a : VenueRow) (l : List VenueRow) :
    a ∈ insertDesc r l ↔ a = r ∨ a ∈ l := by
  rw [(perm_insertDesc r l).mem_iff]
  exact List.mem_cons

theorem perm_sortByCreatedDesc (l : List VenueRow) : (sortByCreatedDesc l).Perm l := by
  induction l with
  | nil => exact List.Perm.refl _
  | cons x xs ih => exact (perm_insertDesc x _).trans (ih.cons x)

theorem pairwise_insertDesc (r : VenueRow) (l : List VenueRow)
    (hl : l.Pairwise (fun r1 r2 => r2.venue.created_at ≤ r1.venue.created_at)) :
    (insertDesc r l).Pairwise (fun r1 r2 => r2.venue.created_at ≤ r1.venue.created_at) := by
  induction l with
  | nil =>
    unfold insertDesc
    exact List.pairwise_singleton _ _
  | cons x xs ih =>
    obtain ⟨hx, hxs⟩ := List.pairwise_cons.mp hl
    unfold insertDesc
    by_cases hcmp : x.venue.created_at < r.venue.created_at
    · rw [if_pos hcmp]
      rw [List.pairwise_cons]
      constructor
      · intro b hb
        rcases List.mem_cons.mp hb with hbx | hbxs
        · rw [hbx]
          exact le_of_lt hcmp
        · exact le_trans (hx b hbxs) (le_of_lt hcmp)
      · exact hl
    · rw [if_neg hcmp]
      rw [List.pairwise_cons]
      constructor
      · intro b hb
        rcases (mem_insertDesc r b xs).mp hb with hbr | hbxs
        · rw [hbr]
          exact not_lt.mp hcmp
        · exact hx b hbxs
      · exact ih hxs

theorem pairwise_sortByCreatedDesc (l : List VenueRow) :
    (sortByCreatedDesc l).Pairwise (fun r1 r2 => r2.venue.created_at ≤ r1.venue.created_at) := by
  induction l with
  | nil => exact List.Pairwise.nil
  | cons x xs ih => exact pairwise_insertDesc x _ ih

/-- C6 counterexample: with the city filter M-percent-o, the listing
returns the Milano venue although the filter value is not a substring
(case-insensitively) of Milano — the percent character acts as a SQL
wildcard; and with the city filter a-n-backslash-o the listing also
returns the Milano venue although that value is no substring of Milano
either — the backslash is the LIKE escape character and makes the
following o literal.  So plain substring semantics do not hold for
every filter value. -/
theorem claim_C6_cex :
    (annotateVenue dbMilano venueMilanoPlain ∈ listVenues dbMilano qWildcardCity ∧
      ¬ (lowered ("M%o".toList) <:+: lowered ("Milano".toList))) ∧
    (annotateVenue dbMilano venueMilanoPlain ∈ listVenues dbMilano qBackslashCity ∧
      ¬ (lowered ("an\\o".toList) <:+: lowered ("Milano".toList))) := by
  refine ⟨⟨?_, ?_⟩, ?_, ?_⟩
  · decide
  · decide
  · decide
  · decide

/-- C6 (amended): the listing returns exactly the venues matching all
supplied filters conjunctively — city, province and region through the
percent-wrapped ILIKE pattern, surface, venue and sport type by exact
equality — ordered newest-created-first, each row carrying the owner's
name and the venue's full image collection (the empty list when it has
none); for filter values free of the SQL wildcard characters percent
and underscore and of the LIKE escape character backslash, the ILIKE
matching coincides with case-insensitive substring matching. -/
theorem claim_C6 (db : DB) (q : VenueFilters) :
    (listVenues db q).Perm
        ((db.sports_venues.filter (fun v => venueMatches q v)).map (annotateVenue db)) ∧
    (∀ row, row ∈ listVenues db q ↔
      ∃ v, v ∈ db.sports_venues ∧ venueMatches q v = true ∧ row = annotateVenue db v) ∧
    (listVenues db q).Pairwise (fun r1 r2 => r2.venue.created_at ≤ r1.venue.created_at) ∧
    (∀ row ∈ listVenues db q,
      row.images = db.field_images.filter (fun i => i.field_id == row.venue.id)) ∧
    (wildcardFreeFilters q = true →
      ∀ v, venueMatches q v = true ↔ specVenueMatches q v) := by
  have hperm : (listVenues db q).Perm
      ((db.sports_venues.filter (fun v => venueMatches q v)).map (annotateVenue db)) :=
    perm_sortByCreatedDesc _
  have hmem : ∀ row, row ∈ listVenues db q ↔
      ∃ v, v ∈ db.sports_venues ∧ venueMatches q v = true ∧ row = annotateVenue db v := by
    intro row
    rw [hperm.mem_iff, List.mem_map]
    constructor
    · rintro ⟨v, hv, hva⟩
      obtain ⟨hvm, hvq⟩ := List.mem_filter.mp hv
      exact ⟨v, hvm, hvq, hva.symm⟩
    · rintro ⟨v, hvm, hvq, hrow⟩
      exact ⟨v, List.mem_filter.mpr ⟨hvm, hvq⟩, hrow.symm⟩
  refine ⟨hperm, hmem, pairwise_sortByCreatedDesc _, ?_, ?_⟩
  · intro row hrow
    obtain ⟨v, _, _, hr⟩ := (hmem row).mp hrow
    rw [hr]
    rfl
  · intro hwf v
    exact venueMatches_iff q v hwf

/-- Witness for C6 at the spec's seeded example: with city=Milano and
sport_type=swimming over the three seeded venues, the listing contains
the Milano swimming venue; the wildcard-free filter matches under the
spec's substring semantics. -/
theorem claim_C6_witness :
    annotateVenue dbSeeded venueMilanoSwimming ∈ listVenues dbSeeded qMilanoSwimming ∧
    (venueMatches qMilanoSwimming venueRomaFootball = true ↔
      specVenueMatches qMilanoSwimming venueRomaFootball) :=
  ⟨((claim_C6 dbSeeded qMilanoSwimming).2.1 _).mpr
      ⟨venueMilanoSwimming, by decide, by decide, rfl⟩,
   (claim_C6 dbSeeded qMilanoSwimming).2.2.2.2 (by decide) venueRomaFootball⟩
